import Mathlib

/-!
Shallow embedding of the RAIDA Key Exchange (RKE) core, translated from the
C sources of the repository:

  * `src/common/aes.h`        — `crypt_ctr`
  * `src/common/protocol.h`   — `get_body_payload` (identity), `get_sn`
                                (little-endian 32-bit load), status codes
  * `src/rke/rke_crypto.c`    — `simple_sha256`, `rke_calculate_checksum`,
                                `rke_verify_checksum`
  * `src/rke/rke_core.c`      — `rke_split_key`, `rke_reconstruct_key`,
                                `rke_validate_fragment`, the process-global
                                `fragment_storage` / `fragment_count`
  * `src/rke/rke_storage.c`   — fragment/metadata store over the filesystem
  * `src/rke/rke_protocol.c`  — `cmd_rke_generate`, `cmd_rke_reconstruct`,
                                `cmd_rke_query`
  * `examples/cmd_key_exechange.c` — `cmd_encrypt_key`,
                                `cmd_decrypt_raida_key`, `load_my_enc_coin`

Modelling conventions:

  * Machine bytes are `Nat` (values kept below 256 by construction where the
    C type is `unsigned char`); `uint16_t`/`uint32_t` arithmetic is `Nat`
    with explicit `% 2^w` where overflow can occur; C `int` status codes
    are `Int`.
  * Buffers are `List Nat`.  A C pointer + length pair becomes the list of
    the meaningful bytes; fixed-size arrays become lists of that length.
  * The entropy source `secure_random_bytes` is modelled as an infinite
    stream `rng : Nat → Nat`, consumed at successive positions, each draw
    reduced `% 256`; in this model the source never fails.
  * The filesystem is modelled per path family.  Fragment and metadata
    paths depend only on the first four bytes of the key id (the directory
    fan-out of `rke_storage.c`), so those stores are keyed by the 4-byte
    list `key_id.take 4` (plus the fragment id).  A stored record is either
    a full record or a short/garbled file (`FileRead.shortRead`), since the
    C code only distinguishes "read delivered the whole struct" from
    anything else before validating fields.
  * The authenticity-page store, `RECORDS_PER_PAGE`, and `get_mfs` are
    external collaborators (spec §1, §6); they appear as oracle parameters.
  * `malloc` is assumed to succeed; the allocation-failure branches set
    `ERROR_MEMORY_ALLOC` and are not modelled.
  * `char` on the target platform (x86-64 Linux) is signed; where the C
    code lets a `char` or `int8_t` flow into an `int` comparison the model
    sign-extends explicitly (`toInt8`, `coinIdOfFile`).
-/

set_option maxRecDepth 100000

deriving instance DecidableEq for Except

namespace RKE

/-! ### Byte-level helpers -/

/-- Two's-complement reading of a byte as a C `int8_t` promoted to `int`. -/
def toInt8 (b : Nat) : Int :=
  if b % 256 < 128 then ((b % 256 : Nat) : Int) else ((b % 256 : Nat) : Int) - 256

/-- Little-endian 32-bit load, as `get_sn` does with `*((uint32_t *)p)` on x86. -/
def le32 (l : List Nat) (off : Nat) : Nat :=
  l.getD off 0 + 256 * l.getD (off + 1) 0 + 65536 * l.getD (off + 2) 0 +
    16777216 * l.getD (off + 3) 0

/-- Pointwise XOR of two byte lists (the inner loops of the C code). -/
def zipXor (a b : List Nat) : List Nat :=
  List.zipWith (fun x y => x ^^^ y) a b

/-! ### `crypt_ctr` (src/common/aes.h, lines 18–24)

`data[i] ^= key[i % 16] ^ nonce[i % 16]` for `i < length`, realised as a
structurally recursive walk carrying the running index. -/

/-- One pass of the `crypt_ctr` loop starting at absolute index `i`. -/
def cryptCtrFrom (key nonce : List Nat) : Nat → List Nat → List Nat
  | _, [] => []
  | i, b :: rest =>
      (b ^^^ key.getD (i % 16) 0 ^^^ nonce.getD (i % 16) 0) ::
        cryptCtrFrom key nonce (i + 1) rest

/-- Embedding of `crypt_ctr(key, data, length, nonce)` with `length = data.length`. -/
def crypt_ctr (key : List Nat) (data : List Nat) (nonce : List Nat) : List Nat :=
  cryptCtrFrom key nonce 0 data

/-! ### `simple_sha256` (src/rke/rke_crypto.c, lines 29–139) -/

/-- Truncation to a 32-bit word. -/
def w32 (x : Nat) : Nat := x % 4294967296

/-- The SHA-256 round constants `k[64]`. -/
def shaK : List Nat :=
  [1116352408, 1899447441, 3049323471, 3921009573, 961987163, 1508970993,
    2453635748, 2870763221, 3624381080, 310598401, 607225278, 1426881987,
    1925078388, 2162078206, 2614888103, 3248222580, 3835390401, 4022224774,
    264347078, 604807628, 770255983, 1249150122, 1555081692, 1996064986,
    2554220882, 2821834349, 2952996808, 3210313671, 3336571891, 3584528711,
    113926993, 338241895, 666307205, 773529912, 1294757372, 1396182291,
    1695183700, 1986661051, 2177026350, 2456956037, 2730485921, 2820302411,
    3259730800, 3345764771, 3516065817, 3600352804, 4094571909, 275423344,
    430227734, 506948616, 659060556, 883997877, 958139571, 1322822218,
    1537002063, 1747873779, 1955562222, 2024104815, 2227730452, 2361852424,
    2428436474, 2756734187, 3204031479, 3329325298]

/-- Embedding of `rotr(x, n)` on 32-bit words. -/
def rotr32 (x n : Nat) : Nat := w32 ((x >>> n) ||| (x <<< (32 - n)))

/-- Embedding of `ch(x, y, z) = (x & y) ^ (~x & z)`; `~x` in 32 bits is `x ^ 0xFFFFFFFF`. -/
def shaCh (x y z : Nat) : Nat := (x &&& y) ^^^ ((x ^^^ 0xFFFFFFFF) &&& z)

/-- Embedding of `maj(x, y, z)`. -/
def shaMaj (x y z : Nat) : Nat := (x &&& y) ^^^ (x &&& z) ^^^ (y &&& z)

/-- Embedding of `ep0`. -/
def shaEp0 (x : Nat) : Nat := rotr32 x 2 ^^^ rotr32 x 13 ^^^ rotr32 x 22

/-- Embedding of `ep1`. -/
def shaEp1 (x : Nat) : Nat := rotr32 x 6 ^^^ rotr32 x 11 ^^^ rotr32 x 25

/-- Embedding of `sig0`. -/
def shaSig0 (x : Nat) : Nat := rotr32 x 7 ^^^ rotr32 x 18 ^^^ (x >>> 3)

/-- Embedding of `sig1`. -/
def shaSig1 (x : Nat) : Nat := rotr32 x 17 ^^^ rotr32 x 19 ^^^ (x >>> 10)

/-- The padding of `simple_sha256`: `0x80`, zeros until the length is
`≡ 56 (mod 64)`, then the bit length as eight big-endian bytes. -/
def shaPad (data : List Nat) : List Nat :=
  let l := data.length
  let zeros := (56 + 64 - (l + 1) % 64) % 64
  data ++ [0x80] ++ List.replicate zeros 0 ++
    (List.range 8).map (fun i => ((l * 8) >>> (56 - i * 8)) &&& 0xFF)

/-- The 16 initial message-schedule words of one 64-byte chunk. -/
def shaChunkWords (chunk : List Nat) : List Nat :=
  (List.range 16).map (fun i =>
    w32 ((chunk.getD (i * 4) 0 <<< 24) ||| (chunk.getD (i * 4 + 1) 0 <<< 16) |||
      (chunk.getD (i * 4 + 2) 0 <<< 8) ||| chunk.getD (i * 4 + 3) 0))

/-- Extension of the message schedule to 64 words (`w[16..63]`). -/
def shaSchedule (chunk : List Nat) : List Nat :=
  (List.range 48).foldl
    (fun ws _ =>
      ws ++ [w32 (shaSig1 (ws.getD (ws.length - 2) 0) + ws.getD (ws.length - 7) 0 +
        shaSig0 (ws.getD (ws.length - 15) 0) + ws.getD (ws.length - 16) 0)])
    (shaChunkWords chunk)

/-- The eight working variables of the compression loop. -/
structure ShaState where
  a : Nat
  b : Nat
  c : Nat
  d : Nat
  e : Nat
  f : Nat
  g : Nat
  hv : Nat
  deriving DecidableEq, Repr

/-- One round of the compression main loop. -/
def shaRound (w : List Nat) (s : ShaState) (i : Nat) : ShaState :=
  let t1 := w32 (s.hv + shaEp1 s.e + shaCh s.e s.f s.g + shaK.getD i 0 + w.getD i 0)
  let t2 := w32 (shaEp0 s.a + shaMaj s.a s.b s.c)
  { a := w32 (t1 + t2), b := s.a, c := s.b, d := s.c,
    e := w32 (s.d + t1), f := s.e, g := s.f, hv := s.g }

/-- Processing of one 64-byte chunk, updating the eight hash words. -/
def shaProcessChunk (h : List Nat) (chunk : List Nat) : List Nat :=
  let w := shaSchedule chunk
  let s0 : ShaState :=
    { a := h.getD 0 0, b := h.getD 1 0, c := h.getD 2 0, d := h.getD 3 0,
      e := h.getD 4 0, f := h.getD 5 0, g := h.getD 6 0, hv := h.getD 7 0 }
  let s := (List.range 64).foldl (shaRound w) s0
  [w32 (h.getD 0 0 + s.a), w32 (h.getD 1 0 + s.b), w32 (h.getD 2 0 + s.c),
   w32 (h.getD 3 0 + s.d), w32 (h.getD 4 0 + s.e), w32 (h.getD 5 0 + s.f),
   w32 (h.getD 6 0 + s.g), w32 (h.getD 7 0 + s.hv)]

/-- Embedding of `simple_sha256(data, len, hash)`: the 32-byte digest as a byte list. -/
def simple_sha256 (data : List Nat) : List Nat :=
  let padded := shaPad data
  let h0 : List Nat :=
    [1779033703, 3144134277, 1013904242, 2773480762,
     1359893119, 2600822924, 528734635, 1541459225]
  let h := (List.range (padded.length / 64)).foldl
    (fun h c => shaProcessChunk h ((padded.drop (c * 64)).take 64)) h0
  h.foldr (fun hi acc =>
    ((hi >>> 24) &&& 0xFF) :: ((hi >>> 16) &&& 0xFF) ::
      ((hi >>> 8) &&& 0xFF) :: (hi &&& 0xFF) :: acc) []

/-! ### Status codes (src/rke/rke.h and src/common/protocol.h) -/

def RKE_SUCCESS : Int := 0
def RKE_ERROR_INVALID_PARAM : Int := -1
def RKE_ERROR_CRYPTO_FAIL : Int := -3
def RKE_ERROR_STORAGE_FAIL : Int := -4
def RKE_ERROR_FRAGMENT_CORRUPT : Int := -5
def RKE_ERROR_INSUFFICIENT_FRAGMENTS : Int := -6

def STATUS_SUCCESS : Int := 0
def ERROR_INVALID_PACKET_LENGTH : Int := -1
def ERROR_INVALID_SN_OR_DENOMINATION : Int := -2
def ERROR_MEMORY_ALLOC : Int := -3
def ERROR_INVALID_PARAMETER : Int := -4
def ERROR_FILESYSTEM : Int := -5
def ERROR_COIN_LOAD : Int := -6
def ERROR_COINS_NOT_DIV : Int := -7
def ERROR_KEY_GENERATION : Int := -11
def ERROR_KEY_SPLITTING : Int := -12

/-! ### Fragment and metadata records (src/rke/rke.h, lines 50–68) -/

/-- Embedding of `struct rke_fragment_t`.  `data` and `checksum` are the 256- and 32-byte
arrays; every constructor in this file keeps them at those lengths. -/
structure Fragment where
  fragment_id : Nat
  total_fragments : Nat
  threshold : Nat
  fragment_size : Nat
  data : List Nat
  checksum : List Nat
  deriving DecidableEq, Repr

/-- The all-zero fragment (the cleared `fragment_storage` slots). -/
def zeroFragment : Fragment :=
  { fragment_id := 0, total_fragments := 0, threshold := 0, fragment_size := 0,
    data := List.replicate 256 0, checksum := List.replicate 32 0 }

/-- Embedding of `struct rke_key_metadata_t`. -/
structure KeyMetadata where
  key_id : List Nat
  key_type : Nat
  total_fragments : Nat
  threshold : Nat
  timestamp : Nat
  den : Nat
  sn : Nat
  deriving DecidableEq, Repr

/-- The first `n` bytes of a fragment's `data` array, as read by the byte
loops of `rke_core.c` (`data[b]` for `b < n`; the array holds 256 bytes). -/
def dataBytes (f : Fragment) (n : Nat) : List Nat :=
  (List.range n).map (fun b => f.data.getD b 0)

/-- The checksum input of `rke_calculate_checksum` (rke_crypto.c, lines
219–228): five header bytes followed by `data[0..fragment_size]`. -/
def checksumInput (f : Fragment) : List Nat :=
  [f.fragment_id, f.total_fragments, f.threshold,
   (f.fragment_size >>> 8) &&& 0xFF, f.fragment_size &&& 0xFF] ++
    dataBytes f f.fragment_size

/-- Embedding of `rke_calculate_checksum` (rke_crypto.c, lines 208–235): writes the digest
of `checksumInput` into the `checksum` field. -/
def rke_calculate_checksum (f : Fragment) : Fragment :=
  { f with checksum := simple_sha256 (checksumInput f) }

/-- Embedding of `rke_verify_checksum` (rke_crypto.c, lines 240–270): recomputes the digest
on a copy with the checksum field cleared — the checksum field is not part of
`checksumInput`, so this is the digest of the same input — and compares the
32 bytes, returning `RKE_SUCCESS` or `RKE_ERROR_FRAGMENT_CORRUPT`. -/
def rke_verify_checksum (f : Fragment) : Int :=
  if f.checksum = simple_sha256 (checksumInput f) then RKE_SUCCESS
  else RKE_ERROR_FRAGMENT_CORRUPT

/-- Embedding of `rke_validate_fragment` (rke_core.c, lines 204–225). -/
def rke_validate_fragment (f : Fragment) : Int :=
  if f.fragment_id = 0 ∨ f.fragment_id > f.total_fragments then RKE_ERROR_INVALID_PARAM
  else if f.threshold > f.total_fragments then RKE_ERROR_INVALID_PARAM
  else if f.fragment_size > 256 then RKE_ERROR_INVALID_PARAM
  else RKE_SUCCESS

/-! ### The splitter / reconstructor (src/rke/rke_core.c)

The process-global `fragment_storage[256]` / `fragment_count` pair is the
`GlobalFrags` value threaded through these functions: `storage.getD i
zeroFragment` is `fragment_storage[i]` (slots beyond the filled ones are the
cleared zero fragments, and the code never reads past `fragment_count`). -/

/-- The process-global fragment area (`fragment_storage`, `fragment_count`). -/
structure GlobalFrags where
  storage : List Fragment
  count : Nat
  deriving DecidableEq, Repr

/-- Data padded to the 256-byte array size (`memset` to zero, then the
meaningful bytes copied in). -/
def padTo256 (d : List Nat) : List Nat :=
  d ++ List.replicate (256 - d.length) 0

/-- A fragment as initialised by the split loop, before its checksum. -/
def mkFragment (id n t l : Nat) (d : List Nat) : Fragment :=
  { fragment_id := id, total_fragments := n, threshold := t, fragment_size := l,
    data := padTo256 d, checksum := List.replicate 32 0 }

/-- The random mask of fragment `j + 2`: `key_size` fresh bytes drawn from the
stream (draw `% 256` models byte output). -/
def maskBytes (l : Nat) (rng : Nat → Nat) (j : Nat) : List Nat :=
  (List.range l).map (fun b => rng (j * l + b) % 256)

/-- Embedding of `rke_split_key(key, key_size, metadata)` (rke_core.c, lines 65–131) with
`key_size = key.length`.  Fragment 1 receives the key XORed with every mask;
fragments `2..N` receive the masks; all checksums are then computed.  On
success the global fragment area holds the `N` fragments. -/
def rke_split_key (key : List Nat) (meta : KeyMetadata) (rng : Nat → Nat) :
    Except Int GlobalFrags :=
  if key.length = 0 ∨ key.length > 256 then .error RKE_ERROR_INVALID_PARAM
  else if meta.threshold > meta.total_fragments then .error RKE_ERROR_INVALID_PARAM
  else if meta.threshold < 2 then .error RKE_ERROR_INVALID_PARAM
  else
    let l := key.length
    let n := meta.total_fragments
    let masks := (List.range (n - 1)).map (maskBytes l rng)
    let first := mkFragment 1 n meta.threshold l (masks.foldl zipXor key)
    let rest := (List.range (n - 1)).map
      (fun j => mkFragment (j + 2) n meta.threshold l (maskBytes l rng j))
    .ok { storage := (first :: rest).map rke_calculate_checksum, count := n }

/-- Success test for an `Except Int` result (a C return value of 0). -/
def isOkE {α : Type} : Except Int α → Bool
  | .ok _ => true
  | .error _ => false

/-- Embedding of `rke_reconstruct_key(key, key_size, metadata)` (rke_core.c, lines
164–199): requires `fragment_count ≥ threshold`, verifies the checksums of
fragments `0..threshold-1` only, then XORs `data[0..key_size]` of fragments
`0..fragment_count-1` together. -/
def rke_reconstruct_key (key_size : Nat) (meta : KeyMetadata) (g : GlobalFrags) :
    Except Int (List Nat) :=
  if key_size = 0 then .error RKE_ERROR_INVALID_PARAM
  else if g.count < meta.threshold then .error RKE_ERROR_INSUFFICIENT_FRAGMENTS
  else if ¬ ((List.range meta.threshold).all
      (fun i => rke_verify_checksum (g.storage.getD i zeroFragment) == RKE_SUCCESS)) then
    .error RKE_ERROR_FRAGMENT_CORRUPT
  else
    let key0 := dataBytes (g.storage.getD 0 zeroFragment) key_size
    .ok ((List.range (g.count - 1)).foldl
      (fun acc k => zipXor acc (dataBytes (g.storage.getD (k + 1) zeroFragment) key_size))
      key0)

/-! ### The fragment / metadata store (src/rke/rke_storage.c)

Paths are `{cwd}/RKE/{kid[0..3] as hex}/fragment_{id:03d}.bin` and
`{cwd}/RKE/{kid[0..3] as hex}/metadata.bin`: they depend on the key id only
through its first four bytes (hex rendering of bytes is injective), so the
stores are keyed by `key_id.take 4`.  A file read either delivers the whole
fixed-size record or fails the `rv != sizeof(...)` check. -/

/-- Result of reading a fixed-size record file: the whole record, or a
short/garbled read. -/
inductive FileRead (α : Type) where
  | shortRead : FileRead α
  | record : α → FileRead α
  deriving DecidableEq, Repr

/-- The durable state the RKE storage functions touch: metadata files and
fragment files, keyed by directory key (`key_id.take 4`) and fragment id. -/
structure RkeFs where
  metaF : List Nat → Option (FileRead KeyMetadata)
  fragF : List Nat → Nat → Option (FileRead Fragment)

/-- Embedding of `rke_store_metadata` (rke_storage.c, lines 135–180); directory creation
and the write are modelled as succeeding. -/
def rke_store_metadata (fs : RkeFs) (meta : KeyMetadata) : RkeFs :=
  { fs with metaF := fun p =>
      if p = meta.key_id.take 4 then some (.record meta) else fs.metaF p }

/-- Embedding of `rke_load_metadata` (rke_storage.c, lines 185–225): open + full read,
then `memcmp` of the 16-byte key id against the lookup key. -/
def rke_load_metadata (fs : RkeFs) (key_id : List Nat) : Except Int KeyMetadata :=
  match fs.metaF (key_id.take 4) with
  | none => .error RKE_ERROR_STORAGE_FAIL
  | some .shortRead => .error RKE_ERROR_STORAGE_FAIL
  | some (.record m) =>
      if m.key_id.take 16 = key_id.take 16 then .ok m
      else .error RKE_ERROR_FRAGMENT_CORRUPT

/-- Embedding of `rke_fragment_exists` (rke_storage.c, lines 230–241): an `access` probe. -/
def rke_fragment_exists (fs : RkeFs) (key_id : List Nat) (fragment_id : Nat) : Bool :=
  fragment_id ≠ 0 && (fs.fragF (key_id.take 4) fragment_id).isSome

/-- Embedding of `rke_load_fragment` (rke_storage.c, lines 83–129): open + full read,
`rke_validate_fragment`, then the fragment-id match. -/
def rke_load_fragment (fs : RkeFs) (key_id : List Nat) (fragment_id : Nat) :
    Except Int Fragment :=
  if fragment_id = 0 then .error RKE_ERROR_INVALID_PARAM
  else match fs.fragF (key_id.take 4) fragment_id with
  | none => .error RKE_ERROR_STORAGE_FAIL
  | some .shortRead => .error RKE_ERROR_STORAGE_FAIL
  | some (.record f) =>
      if rke_validate_fragment f ≠ RKE_SUCCESS then .error RKE_ERROR_FRAGMENT_CORRUPT
      else if f.fragment_id ≠ fragment_id then .error RKE_ERROR_FRAGMENT_CORRUPT
      else .ok f

/-- Embedding of `rke_count_fragments` (rke_storage.c, lines 246–262): probes ids 1..255. -/
def rke_count_fragments (fs : RkeFs) (key_id : List Nat) : Nat :=
  ((List.range 255).map (fun k => k + 1)).countP
    (fun i => rke_fragment_exists fs key_id i)

/-! ### RKE protocol handlers (src/rke/rke_protocol.c)

A request is the body byte list (`get_body_payload` returns `ci->body`
itself, so payload offsets are body offsets) with `body_size = body.length`.
Handlers return their `command_status` and the response buffer. -/

/-- Result of `cmd_rke_generate`: status, response, the new filesystem state
and the new process-global fragment area. -/
structure GenResult where
  status : Int
  output : Option (List Nat)
  fs : RkeFs
  globalFrags : GlobalFrags

/-- Embedding of `cmd_rke_generate` (rke_protocol.c, lines 27–106).  `rke_generate_key`
draws 256 bytes from the stream; `rke_split_key` consumes the stream from
position 256 on.  `now` is `time(NULL)`. -/
def cmd_rke_generate (body : List Nat) (fs : RkeFs) (g : GlobalFrags)
    (rng : Nat → Nat) (now : Nat) : GenResult :=
  if body.length ≠ 21 then ⟨ERROR_INVALID_PACKET_LENGTH, none, fs, g⟩
  else
    let meta : KeyMetadata :=
      { key_id := body.take 16, key_type := body.getD 16 0,
        total_fragments := body.getD 17 0, threshold := body.getD 18 0,
        timestamp := now, den := 0, sn := 0 }
    if meta.threshold > meta.total_fragments then ⟨ERROR_INVALID_PARAMETER, none, fs, g⟩
    else if meta.total_fragments = 0 then ⟨ERROR_INVALID_PARAMETER, none, fs, g⟩
    else if meta.threshold < 2 then ⟨ERROR_INVALID_PARAMETER, none, fs, g⟩
    else
      let key := (List.range 256).map (fun i => rng i % 256)
      match rke_split_key key meta (fun i => rng (256 + i)) with
      | .error _ => ⟨ERROR_KEY_SPLITTING, none, fs, g⟩
      | .ok g2 => ⟨STATUS_SUCCESS, some [0x01], rke_store_metadata fs meta, g2⟩

/-- Result of `cmd_rke_reconstruct`. -/
structure CmdResult where
  status : Int
  output : Option (List Nat)
  deriving DecidableEq, Repr

/-- The fragment-loading loop of `cmd_rke_reconstruct` (rke_protocol.c, lines
208–218): for ids `1..threshold`, a fragment that exists is loaded (and the
loaded record discarded); the loop fails with `ERROR_FILESYSTEM` as soon as a
load fails.  `true` here means some load failed. -/
def reconstructLoadFails (fs : RkeFs) (key_id : List Nat) (threshold : Nat) : Bool :=
  ((List.range threshold).map (fun k => k + 1)).any
    (fun i => rke_fragment_exists fs key_id i && !(isOkE (rke_load_fragment fs key_id i)))

/-- Embedding of `cmd_rke_reconstruct` (rke_protocol.c, lines 172–240): loads metadata,
counts on-disk fragments against the threshold, loads (and discards) the
first `threshold` fragments that exist, then calls `rke_reconstruct_key`
with key size 256 on the process-global fragment area. -/
def cmd_rke_reconstruct (body : List Nat) (fs : RkeFs) (g : GlobalFrags) : CmdResult :=
  if body.length ≠ 18 then ⟨ERROR_INVALID_PACKET_LENGTH, none⟩
  else
    let key_id := body.take 16
    match rke_load_metadata fs key_id with
    | .error _ => ⟨ERROR_FILESYSTEM, none⟩
    | .ok meta =>
        if rke_count_fragments fs key_id < meta.threshold then
          ⟨ERROR_INVALID_PARAMETER, none⟩
        else if reconstructLoadFails fs key_id meta.threshold then
          ⟨ERROR_FILESYSTEM, none⟩
        else match rke_reconstruct_key 256 meta g with
          | .error _ => ⟨ERROR_KEY_GENERATION, none⟩
          | .ok key => ⟨STATUS_SUCCESS, some key⟩

/-- Result of `cmd_rke_query`: status and, on success, the metadata record
and the 32-byte fragment bitmap (the C response is the raw metadata struct
followed by the bitmap; the two components are kept structured here). -/
structure QueryResult where
  status : Int
  meta : Option KeyMetadata
  bitmap : Option (List Nat)
  deriving DecidableEq, Repr

/-- The bitmap loop of `cmd_rke_query` (rke_protocol.c, lines 276–288):
bit `(i-1) % 8` of byte `(i-1) / 8` is set iff fragment `i` exists,
for `i` in `1..total_fragments`. -/
def queryBitmap (fs : RkeFs) (key_id : List Nat) (total : Nat) : List Nat :=
  (List.range total).foldl
    (fun bm k =>
      let i := k + 1
      if rke_fragment_exists fs key_id i then
        bm.set ((i - 1) / 8) (bm.getD ((i - 1) / 8) 0 ||| (1 <<< ((i - 1) % 8)))
      else bm)
    (List.replicate 32 0)

/-- Embedding of `cmd_rke_query` (rke_protocol.c, lines 247–306). -/
def cmd_rke_query (body : List Nat) (fs : RkeFs) : QueryResult :=
  if body.length ≠ 18 then ⟨ERROR_INVALID_PACKET_LENGTH, none, none⟩
  else
    let key_id := body.take 16
    match rke_load_metadata fs key_id with
    | .error _ => ⟨ERROR_FILESYSTEM, none, none⟩
    | .ok meta => ⟨STATUS_SUCCESS, some meta, some (queryBitmap fs key_id meta.total_fragments)⟩

/-! ### Encryption-coin handlers (examples/cmd_key_exechange.c)

The authenticity-page store, `RECORDS_PER_PAGE`, `get_mfs` and the config
are external collaborators (spec §1, §6): they appear as fields of `CoinEnv`.
Coin files are byte lists keyed by the `(den, sn)` pair (the path
`{cwd}/coins/{den:02hhx}.{sn}.bin` is injective in that pair). -/

/-- An authenticity page: `RECORDS_PER_PAGE` 17-byte records and the dirty
flag (`struct page_s` fields the handlers touch). -/
structure Page where
  data : List Nat
  is_dirty : Bool
  deriving DecidableEq, Repr

/-- The external environment of the coin handlers.  `pages den sn` is
`get_page_by_sn_lock(den, sn)` (`den` after its `int8_t` promotion);
`recordsPerPage` is `RECORDS_PER_PAGE`; `mfs` is `get_mfs()`;
`coins den sn` is the coin file, if present; `coin_id` is `config.coin_id`. -/
structure CoinEnv where
  pages : Int → Nat → Option Page
  recordsPerPage : Nat
  mfs : Nat
  coins : Nat → Nat → Option (List Nat)
  coin_id : Nat

/-- The `coin_id = tmp_buf[2] << 8 | tmp_buf[3]` parse of `load_my_enc_coin`
(cmd_key_exechange.c, line 318).  `tmp_buf` is `char[]`, signed on the
target platform, so both bytes are sign-extended to `int` before the shift
and or; the result is then truncated by the `uint16_t` assignment.  For a
byte `b3 ≥ 0x80` the sign bits of `tmp_buf[3]` fill bits 15..8, giving
`0xFF00 | b3` regardless of `b2`. -/
def coinIdOfFile (b2 b3 : Nat) : Nat :=
  let s := fun b : Nat => if b % 256 < 128 then b % 256 else 4294967040 + b % 256
  w32 ((s b2 <<< 8) ||| s b3) % 65536

/-- Embedding of `load_my_enc_coin(den, sn, buf)` (cmd_key_exechange.c, lines 288–329):
opens the coin file, requires a full 440-byte read, compares the parsed
coin id with `config.coin_id`, and returns bytes 40..439.  `none` is the C
return value `-1`. -/
def load_my_enc_coin (env : CoinEnv) (den sn : Nat) : Option (List Nat) :=
  match env.coins den sn with
  | none => none
  | some file =>
      if min file.length 440 ≠ 440 then none
      else if coinIdOfFile (file.getD 2 0) (file.getD 3 0) ≠ env.coin_id then none
      else some ((file.drop 40).take 400)

/-- Result of `cmd_encrypt_key` / `cmd_decrypt_raida_key`: the status, the
response buffer, and the page store after any writes. -/
structure CoinCmdResult where
  status : Int
  output : Option (List Nat)
  pages : Int → Nat → Option Page

/-- The 16-byte plaintext block built by `cmd_encrypt_key` before the stream
transform (cmd_key_exechange.c, lines 92–112): bytes 0..7 from
`payload[5..12]`, byte 8 the denomination byte `payload[0]`, bytes 9..12
from `payload[1..4]`, bytes 13..14 from the random draw, byte 15 `0xff`. -/
def encryptKeyPlain (body : List Nat) (r0 : Nat) : List Nat :=
  [body.getD 5 0, body.getD 6 0, body.getD 7 0, body.getD 8 0,
   body.getD 9 0, body.getD 10 0, body.getD 11 0, body.getD 12 0,
   body.getD 0 0 % 256,
   body.getD 1 0, body.getD 2 0, body.getD 3 0, body.getD 4 0,
   (r0 >>> 8) &&& 0xFF, r0 &&& 0xFF, 0xFF]

/-- The 16-byte authentication secret at record `sn_idx` of a page
(`&page->data[sn_idx * 17]`). -/
def pageAen (pg : Page) (sn_idx : Nat) : List Nat :=
  (pg.data.drop (sn_idx * 17)).take 16

/-- Embedding of `cmd_encrypt_key` (cmd_key_exechange.c, lines 45–124): body length must
be 31; the denomination is `payload[0]` and the serial `payload[1..4]`
little-endian; the page record's secret is the stream key; `r0` is the
`rand()` draw; the response is `crypt_ctr` applied to `encryptKeyPlain`. -/
def cmd_encrypt_key (body : List Nat) (env : CoinEnv) (nonce : List Nat)
    (r0 : Nat) : CoinCmdResult :=
  if body.length ≠ 31 then ⟨ERROR_INVALID_PACKET_LENGTH, none, env.pages⟩
  else
    let den := toInt8 (body.getD 0 0)
    let sn := le32 body 1
    match env.pages den sn with
    | none => ⟨ERROR_INVALID_SN_OR_DENOMINATION, none, env.pages⟩
    | some pg =>
        let sn_idx := sn % env.recordsPerPage
        let aen := pageAen pg sn_idx
        ⟨STATUS_SUCCESS, some (crypt_ctr aen (encryptKeyPlain body r0) nonce), env.pages⟩

/-- One per-peer block of `cmd_decrypt_raida_key` (cmd_key_exechange.c,
lines 198–271), acting on the page store; returns the updated store and the
accept flag.  The stream key is `&aens[da]` — bytes `da..da+15` of the
400-byte secret table — exactly as in the source (`crypt_ctr(&aens[da],
ky, 16, ci->nonce)`, line 233). -/
def decryptBlock (env : CoinEnv) (aens : List Nat) (nonce : List Nat) (mfs : Nat)
    (body : List Nat) (pages : Int → Nat → Option Page) (i : Nat) :
    (Int → Nat → Option Page) × Bool :=
  let base := 21 + i * 26
  let split_id := body.getD (base + 2) 0
  let da := body.getD (base + 3) 0
  let denB := body.getD (base + 5) 0
  let den := toInt8 denB
  let sn := le32 body (base + 6)
  let ky := (body.drop (base + 10)).take 16
  if da > 24 then (pages, false)
  else if split_id ≠ 0 ∧ split_id ≠ 1 then (pages, false)
  else match pages den sn with
  | none => (pages, false)
  | some _ =>
      let dec := crypt_ctr ((aens.drop da).take 16) ky nonce
      if dec.getD 15 0 ≠ 0xff then (pages, false)
      else
        let dec_den := dec.getD 8 0
        let dec_sn := le32 dec 9
        if ¬ ((dec_den : Int) = den ∧ dec_sn = sn) then (pages, false)
        else match pages den sn with
        | none => (pages, false)
        | some pg =>
            let sn_idx := sn % env.recordsPerPage
            let d0 := pg.data
            let d1 := (List.range 8).foldl
              (fun d j => d.set (sn_idx * 17 + split_id * 8 + j) (dec.getD j 0)) d0
            let pg2 : Page := { data := d1.set (sn_idx * 17 + 16) mfs, is_dirty := true }
            (fun dd ss => if dd = den ∧ ss = sn then some pg2 else pages dd ss, true)

/-- One iteration of the per-coin loop: runs `decryptBlock` on the threaded
page store and appends one output byte (0x01 accepted, 0x00 rejected). -/
def decryptStep (env : CoinEnv) (aens nonce : List Nat) (mfs : Nat)
    (body : List Nat) (st : (Int → Nat → Option Page) × List Nat) (i : Nat) :
    (Int → Nat → Option Page) × List Nat :=
  let r := decryptBlock env aens nonce mfs body st.1 i
  (r.1, st.2 ++ [if r.2 then 1 else 0])

/-- The per-coin loop of `cmd_decrypt_raida_key`. -/
def decryptLoop (env : CoinEnv) (aens nonce : List Nat) (mfs : Nat)
    (body : List Nat) (total : Nat) : (Int → Nat → Option Page) × List Nat :=
  (List.range total).foldl (decryptStep env aens nonce mfs body) (env.pages, [])

/-- Embedding of `cmd_decrypt_raida_key` (cmd_key_exechange.c, lines 129–279): length
check (≥ 49), 26-byte divisibility check, coin load keyed by `payload[0]`
and `payload[1..4]`, then the per-coin loop; the status is
`STATUS_SUCCESS` whenever the loop is reached. -/
def cmd_decrypt_raida_key (body : List Nat) (env : CoinEnv) (nonce : List Nat) :
    CoinCmdResult :=
  if body.length < 49 then ⟨ERROR_INVALID_PACKET_LENGTH, none, env.pages⟩
  else if (body.length - 23) % 26 ≠ 0 then ⟨ERROR_COINS_NOT_DIV, none, env.pages⟩
  else
    let total := (body.length - 23) / 26
    let den := body.getD 0 0
    let sn := le32 body 1
    match load_my_enc_coin env den sn with
    | none => ⟨ERROR_COIN_LOAD, none, env.pages⟩
    | some aens =>
        let r := decryptLoop env aens nonce env.mfs body total
        ⟨STATUS_SUCCESS, some r.2, r.1⟩

/-! ### Concrete scenarios used by the per-claim witnesses and
counterexamples.  Each family of `cNxxx` definitions belongs to one claim. -/

/-- C2: the S1 generate request — key id `00 01 .. 0f`, type 0x01, N=5, T=3. -/
def c2genBody : List Nat := List.range 16 ++ [1, 5, 3, 255, 255]

/-- C2: an empty fragment/metadata store. -/
def c2emptyFs : RkeFs := ⟨fun _ => none, fun _ _ => none⟩

/-- C2: the cleared process-global fragment area. -/
def c2g0 : GlobalFrags := ⟨[], 0⟩

/-- C2: the generate call on the empty store. -/
def c2gen : GenResult := cmd_rke_generate c2genBody c2emptyFs c2g0 (fun _ => 0) 0

/-- C2: the S1 query request for the same key id. -/
def c2queryBody : List Nat := List.range 16 ++ [255, 255]

/-- C3: a 400-byte peer-secret table with pairwise-distinct 16-byte rows. -/
def c3table : List Nat := (List.range 400).map (fun i => i % 256)

/-- C3: a coin file with coin id 0 and `c3table` as its secret table. -/
def c3file : List Nat := List.replicate 40 0 ++ c3table

/-- C3: the 16-byte plaintext a peer block should decrypt to — sentinel 0xff,
den 1 and serial 100 bound in bytes 8..12. -/
def c3plain : List Nat := [1, 2, 3, 4, 5, 6, 7, 8, 1, 100, 0, 0, 0, 0, 0, 255]

/-- C3: the request nonce. -/
def c3nonce : List Nat := List.replicate 16 0

/-- C3: the key the code uses for peer `da = 1`: table bytes 1..16. -/
def c3keyCode : List Nat := (c3table.drop 1).take 16

/-- C3: the key the claim (and the table layout) prescribe for peer `da = 1`:
table bytes 16..31. -/
def c3keyClaim : List Nat := (c3table.drop 16).take 16

/-- C3: one 26-byte per-peer block with split 0, `da = 1`, den 1, sn 100. -/
def c3blockOf (cipher : List Nat) : List Nat :=
  [0, 0, 0, 1, 0, 1, 100, 0, 0, 0] ++ cipher

/-- C3: a 49-byte `decrypt_raida_key` body carrying one block. -/
def c3bodyOf (cipher : List Nat) : List Nat :=
  [1, 100, 0, 0, 0] ++ List.replicate 16 0 ++ c3blockOf cipher ++ [255, 255]

/-- C3: environment with the coin file and one ten-record authenticity page. -/
def c3env : CoinEnv :=
  ⟨fun d srl => if d = 1 ∧ srl = 100 then some ⟨List.replicate 170 0, false⟩ else none,
    10, 7,
    fun d srl => if d = 1 ∧ srl = 100 then some c3file else none, 0⟩

/-- C4: a 31-byte `encrypt_key` body whose byte 0 is 1 but whose byte 16 is 2
(the two candidate denomination positions disagree). -/
def c4body : List Nat :=
  [1, 100, 0, 0, 0, 10, 11, 12, 13, 14, 15, 16, 17, 0, 0, 0, 2] ++ List.replicate 14 0

/-- C4: the authenticity page holding the record for serial 100. -/
def c4page : Page := ⟨(List.range 170).map (fun i => i % 256), false⟩

/-- C4: environment exposing `c4page` for den 1, sn 100. -/
def c4env : CoinEnv :=
  ⟨fun d srl => if d = 1 ∧ srl = 100 then some c4page else none, 10, 0,
    fun _ _ => none, 0⟩

/-- C4: the request nonce. -/
def c4nonce : List Nat := List.replicate 16 3

/-- C5: metadata for a key with one fragment and threshold 1. -/
def c5meta : KeyMetadata := ⟨[1, 2, 3, 4] ++ List.replicate 12 0, 1, 1, 1, 0, 0, 0⟩

/-- C5: the global fragment area left by the most recent split. -/
def c5frag : Fragment := rke_calculate_checksum (mkFragment 1 1 1 1 [7])

/-- C5: the global fragment area (one verified fragment). -/
def c5global : GlobalFrags := ⟨[c5frag], 1⟩

/-- C5: the 18-byte reconstruct request for that key. -/
def c5body : List Nat := ([1, 2, 3, 4] ++ List.replicate 12 0) ++ [255, 255]

/-- C5: a filesystem whose fragment file 1 holds a valid fragment record. -/
def c5fsA : RkeFs :=
  ⟨fun p => if p = [1, 2, 3, 4] then some (.record c5meta) else none,
    fun p i => if p = [1, 2, 3, 4] ∧ i = 1 then
      some (.record ⟨1, 1, 1, 0, List.replicate 256 0, List.replicate 32 0⟩) else none⟩

/-- C5: the same filesystem except that fragment file 1 holds a record whose
stored fragment id is 2 (the load rejects it); file presence is unchanged. -/
def c5fsB : RkeFs :=
  ⟨fun p => if p = [1, 2, 3, 4] then some (.record c5meta) else none,
    fun p i => if p = [1, 2, 3, 4] ∧ i = 1 then
      some (.record ⟨2, 1, 1, 0, List.replicate 256 0, List.replicate 32 0⟩) else none⟩

/-- C5 witness: every directory\'s fragment file 1 holds a loadable fragment
with data byte 5. -/
def c5fsC : RkeFs :=
  ⟨fun p => if p = [1, 2, 3, 4] then some (.record c5meta) else none,
    fun _ i => if i = 1 then
      some (.record ⟨1, 1, 1, 1, padTo256 [5], List.replicate 32 0⟩) else none⟩

/-- C5 witness: like `c5fsC` but the stored data byte is 9. -/
def c5fsD : RkeFs :=
  ⟨fun p => if p = [1, 2, 3, 4] then some (.record c5meta) else none,
    fun _ i => if i = 1 then
      some (.record ⟨1, 1, 1, 1, padTo256 [9], List.replicate 32 0⟩) else none⟩

/-- C6: metadata for three fragments with threshold 2. -/
def c6meta : KeyMetadata := ⟨List.range 16, 1, 3, 2, 0, 0, 0⟩

/-- C6: fragment 1, checksummed. -/
def c6good1 : Fragment := rke_calculate_checksum (mkFragment 1 3 2 1 [10])

/-- C6: fragment 2, checksummed. -/
def c6good2 : Fragment := rke_calculate_checksum (mkFragment 2 3 2 1 [20])

/-- C6: fragment 3 with its data byte flipped after the checksum was
computed — its checksum no longer verifies. -/
def c6bad3 : Fragment :=
  { rke_calculate_checksum (mkFragment 3 3 2 1 [30]) with data := padTo256 [31] }

/-- C6: a fragment area where the corrupt fragment sits beyond the threshold
(index 2, threshold 2) and is therefore XORed but never verified. -/
def c6state : GlobalFrags := ⟨[c6good1, c6good2, c6bad3], 3⟩

/-- C6 witness: a fragment area where the corrupt fragment sits at index 1 —
inside the threshold. -/
def c6state2 : GlobalFrags := ⟨[c6good1, c6bad3, c6good2], 3⟩

/-- C7: environment for the success branch: a coin file of zeros (coin id 0)
and no authenticity pages. -/
def c7env : CoinEnv :=
  ⟨fun _ _ => none, 10, 0, fun d srl =>
    if d = 0 ∧ srl = 0 then some (List.replicate 440 0) else none, 0⟩

/-- C7: the request nonce. -/
def c7nonce : List Nat := List.replicate 16 0

/-- C9: a 440-byte coin file whose header bytes 2 and 3 are 0x00 and 0x80. -/
def c9file : List Nat := [0, 0, 0, 128] ++ List.replicate 436 9

/-- C9: environment whose configured coin id is 0xFF80 and whose coin store
holds `c9file` for den 1, sn 100. -/
def c9env : CoinEnv :=
  ⟨fun _ _ => none, 1, 0,
    fun d srl => if d = 1 ∧ srl = 100 then some c9file else none, 0xFF80⟩

/-- The coin-id parse as the claim states it: `(byte2 << 8) | byte3` with
both bytes taken as unsigned.  (Stated from the claim, for comparison with
the source\'s `coinIdOfFile`.) -/
def specCoinIdBigEndian (b2 b3 : Nat) : Nat := (b2 % 256) * 256 + b3 % 256

/-! ### Helper lemmas -/

/-- XOR by the same value twice is the identity. -/
lemma xor_xor_cancel (x a : Nat) : x ^^^ a ^^^ a = x := by
  rw [Nat.xor_assoc, Nat.xor_self, Nat.xor_zero]

/-- The last two XOR operands can be swapped. -/
lemma xor_right_comm (x a b : Nat) : x ^^^ a ^^^ b = x ^^^ b ^^^ a := by
  rw [Nat.xor_assoc, Nat.xor_comm a b, ← Nat.xor_assoc]

lemma cryptCtrFrom_length (key nonce : List Nat) :
    ∀ (j : Nat) (data : List Nat), (cryptCtrFrom key nonce j data).length = data.length := by
  intro j data
  induction data generalizing j with
  | nil => rfl
  | cons b rest ih => simp [cryptCtrFrom, ih]

/-- Applying the `crypt_ctr` loop twice from the same start index restores
the buffer. -/
lemma cryptCtrFrom_involutive (key nonce : List Nat) :
    ∀ (j : Nat) (data : List Nat),
      cryptCtrFrom key nonce j (cryptCtrFrom key nonce j data) = data := by
  intro j data
  induction data generalizing j with
  | nil => rfl
  | cons b rest ih =>
      simp only [cryptCtrFrom, List.cons.injEq]
      refine ⟨?_, ih (j + 1)⟩
      rw [xor_right_comm (b ^^^ key.getD (j % 16) 0 ^^^ nonce.getD (j % 16) 0),
        xor_xor_cancel, xor_xor_cancel]

/-- Byte `i` of the `crypt_ctr` loop output, for a loop started at index `j`. -/
lemma cryptCtrFrom_getD (key nonce : List Nat) :
    ∀ (data : List Nat) (j i : Nat), i < data.length →
      (cryptCtrFrom key nonce j data).getD i 0 =
        data.getD i 0 ^^^ key.getD ((j + i) % 16) 0 ^^^ nonce.getD ((j + i) % 16) 0 := by
  intro data
  induction data with
  | nil => intro j i h; simp at h
  | cons b rest ih =>
      intro j i h
      cases i with
      | zero => simp [cryptCtrFrom]
      | succ i' =>
          have h' : i' < rest.length := by simpa using h
          have := ih (j + 1) i' h'
          simpa [cryptCtrFrom, Nat.add_assoc, Nat.add_comm 1 i'] using this

/-! ### C8 — `crypt_ctr` byte formula and involution -/

/-- C8: `crypt_ctr` XORs byte `i` with `key[i % 16] ^ nonce[i % 16]`, and
applying it twice with the same key and nonce restores the buffer. -/
theorem C8_crypt_ctr_xor_involutive (key nonce buf : List Nat) :
    (∀ i, i < buf.length →
      (crypt_ctr key buf nonce).getD i 0 =
        buf.getD i 0 ^^^ key.getD (i % 16) 0 ^^^ nonce.getD (i % 16) 0) ∧
    crypt_ctr key (crypt_ctr key buf nonce) nonce = buf := by
  constructor
  · intro i hi
    simpa using cryptCtrFrom_getD key nonce buf 0 i hi
  · exact cryptCtrFrom_involutive key nonce 0 buf

/-- C8 witness: the formula at byte 1 of a concrete buffer, and the
involution on that buffer. -/
theorem C8_crypt_ctr_witness :
    (1 < ([5, 6, 7] : List Nat).length ∧
      (crypt_ctr [3, 4] [5, 6, 7] [9, 2]).getD 1 0 =
        ([5, 6, 7] : List Nat).getD 1 0 ^^^ ([3, 4] : List Nat).getD (1 % 16) 0 ^^^
          ([9, 2] : List Nat).getD (1 % 16) 0) ∧
    crypt_ctr [3, 4] (crypt_ctr [3, 4] [5, 6, 7] [9, 2]) [9, 2] = [5, 6, 7] :=
  ⟨⟨by decide, (C8_crypt_ctr_xor_involutive [3, 4] [9, 2] [5, 6, 7]).1 1 (by decide)⟩,
    (C8_crypt_ctr_xor_involutive [3, 4] [9, 2] [5, 6, 7]).2⟩

/-! ### XOR-fold lemmas for the split/reconstruct roundtrip -/

lemma length_zipXor (a b : List Nat) : (zipXor a b).length = min a.length b.length := by
  simp [zipXor]

lemma getD_zipXor (a b : List Nat) (i : Nat) (ha : i < a.length) (hb : i < b.length) :
    (zipXor a b).getD i 0 = a.getD i 0 ^^^ b.getD i 0 := by
  have hab : i < (zipXor a b).length := by
    rw [length_zipXor]; exact lt_min ha hb
  rw [List.getD_eq_getElem _ _ hab, List.getD_eq_getElem _ _ ha, List.getD_eq_getElem _ _ hb]
  simp [zipXor]

lemma foldl_zipXor_length (ms : List (List Nat)) :
    ∀ (a : List Nat), (∀ m ∈ ms, m.length = a.length) →
      (ms.foldl zipXor a).length = a.length := by
  induction ms with
  | nil => intro a _; rfl
  | cons m rest ih =>
      intro a hm
      have hma : m.length = a.length := hm m (List.mem_cons_self m rest)
      have hlen : (zipXor a m).length = a.length := by
        rw [length_zipXor, hma]; exact Nat.min_self _
      have := ih (zipXor a m) (by
        intro x hx
        rw [hlen]
        exact hm x (List.mem_cons_of_mem m hx))
      simpa [hlen] using this

lemma foldl_zipXor_getD (ms : List (List Nat)) :
    ∀ (a : List Nat) (i : Nat), i < a.length → (∀ m ∈ ms, m.length = a.length) →
      (ms.foldl zipXor a).getD i 0 =
        ms.foldl (fun x m => x ^^^ m.getD i 0) (a.getD i 0) := by
  induction ms with
  | nil => intro a i _ _; rfl
  | cons m rest ih =>
      intro a i hi hm
      have hma : m.length = a.length := hm m (List.mem_cons_self m rest)
      have hlen : (zipXor a m).length = a.length := by
        rw [length_zipXor, hma]; exact Nat.min_self _
      have h1 : (zipXor a m).getD i 0 = a.getD i 0 ^^^ m.getD i 0 :=
        getD_zipXor a m i hi (hma ▸ hi)
      have h2 := ih (zipXor a m) i (hlen ▸ hi) (by
        intro x hx
        rw [hlen]
        exact hm x (List.mem_cons_of_mem m hx))
      simp only [List.foldl_cons]
      rw [h2, h1]

/-- A left XOR fold factors through its starting value. -/
lemma foldl_xor_shift {β : Type} (f : β → Nat) (l : List β) :
    ∀ (x : Nat), l.foldl (fun acc m => acc ^^^ f m) x =
      x ^^^ l.foldl (fun acc m => acc ^^^ f m) 0 := by
  induction l with
  | nil => intro x; simp
  | cons m rest ih =>
      intro x
      simp only [List.foldl_cons]
      rw [ih (x ^^^ f m), ih (0 ^^^ f m), Nat.zero_xor, Nat.xor_assoc]

/-- Folding the same masks into a buffer twice restores the buffer. -/
lemma foldl_zipXor_cancel (ms : List (List Nat)) (a : List Nat)
    (hm : ∀ m ∈ ms, m.length = a.length) :
    ms.foldl zipXor (ms.foldl zipXor a) = a := by
  have hlen1 : (ms.foldl zipXor a).length = a.length := foldl_zipXor_length ms a hm
  have hm2 : ∀ m ∈ ms, m.length = (ms.foldl zipXor a).length := by
    intro m hmm; rw [hlen1]; exact hm m hmm
  have hlen2 : (ms.foldl zipXor (ms.foldl zipXor a)).length = a.length := by
    rw [foldl_zipXor_length ms _ hm2, hlen1]
  apply List.ext_getElem hlen2
  intro i h1 h2
  rw [← List.getD_eq_getElem _ 0 h1, ← List.getD_eq_getElem _ 0 h2]
  rw [foldl_zipXor_getD ms _ i (hlen1 ▸ h2) hm2,
    foldl_zipXor_getD ms a i h2 hm,
    foldl_xor_shift (fun m : List Nat => m.getD i 0) ms (a.getD i 0),
    foldl_xor_shift (fun m : List Nat => m.getD i 0) ms
      (a.getD i 0 ^^^ ms.foldl (fun acc m => acc ^^^ m.getD i 0) 0),
    xor_xor_cancel]

/-- XOR with the all-zero buffer is the identity. -/
lemma zipXor_replicate_zero (x : List Nat) :
    zipXor (List.replicate x.length 0) x = x := by
  induction x with
  | nil => rfl
  | cons b rest ih => simpa [zipXor, List.replicate, Nat.zero_xor] using ih


/-! ### Structure of the split state -/

/-- Reading `data[0..d.length]` of a list returns the list itself. -/
lemma getD_range_map (d : List Nat) :
    (List.range d.length).map (fun b => d.getD b 0) = d := by
  induction d with
  | nil => rfl
  | cons a t ih =>
      rw [List.length_cons, List.range_succ_eq_map, List.map_cons, List.map_map]
      simp only [Function.comp_def, List.getD_cons_succ, List.getD_cons_zero]
      rw [ih]

/-- Reading the first `l` data bytes of a freshly initialised fragment
returns the meaningful bytes. -/
lemma dataBytes_mkFragment (id n t l : Nat) (d : List Nat) (hd : d.length = l) :
    dataBytes (mkFragment id n t l d) l = d := by
  subst hd
  have h : ∀ b ∈ List.range d.length,
      (d ++ List.replicate (256 - d.length) 0).getD b 0 = d.getD b 0 := by
    intro b hb
    exact List.getD_append d (List.replicate (256 - d.length) 0) 0 b (List.mem_range.mp hb)
  have h2 : dataBytes (mkFragment id n t d.length d) d.length
      = (List.range d.length).map
          (fun b => (d ++ List.replicate (256 - d.length) 0).getD b 0) := rfl
  rw [h2, List.map_congr_left h]
  exact getD_range_map d

/-- Embedding of `rke_calculate_checksum` only writes the checksum field. -/
lemma dataBytes_calc (f : Fragment) (k : Nat) :
    dataBytes (rke_calculate_checksum f) k = dataBytes f k := rfl

/-- A fragment whose checksum was just computed verifies (the checksum field
is not part of the digest input). -/
lemma verify_calc (f : Fragment) :
    rke_verify_checksum (rke_calculate_checksum f) = RKE_SUCCESS := by
  unfold rke_verify_checksum
  rw [show checksumInput (rke_calculate_checksum f) = checksumInput f from rfl]
  rw [show (rke_calculate_checksum f).checksum = simple_sha256 (checksumInput f) from rfl]
  simp

lemma foldl_congr_mem {α β : Type} (l : List β) (f g : α → β → α) (a : α)
    (h : ∀ acc x, x ∈ l → f acc x = g acc x) : l.foldl f a = l.foldl g a := by
  induction l generalizing a with
  | nil => rfl
  | cons x rest ih =>
      rw [List.foldl_cons, List.foldl_cons, h a x (List.mem_cons_self x rest)]
      exact ih _ (fun acc y hy => h acc y (List.mem_cons_of_mem x hy))

lemma maskBytes_length (l : Nat) (rng : Nat → Nat) (j : Nat) :
    (maskBytes l rng j).length = l := by simp [maskBytes]

/-! ### C1 — split/reconstruct roundtrip -/

/-- C1: whenever `rke_split_key` succeeds on a key of length 1..256 with
`2 ≤ T ≤ N ≤ 255`, the XOR of all `N` fragments\' first `L` data bytes is the
key, and `rke_reconstruct_key` over the resulting fragment area succeeds and
returns exactly the key. -/
theorem C1_split_reconstruct_roundtrip (key : List Nat) (meta : KeyMetadata)
    (rng : Nat → Nat) (hL1 : 1 ≤ key.length) (hL2 : key.length ≤ 256)
    (hN : meta.total_fragments ≤ 255) (hT2 : 2 ≤ meta.threshold)
    (hTN : meta.threshold ≤ meta.total_fragments) :
    ∀ g, rke_split_key key meta rng = .ok g →
      (g.storage.map (fun f => dataBytes f key.length)).foldl zipXor
          (List.replicate key.length 0) = key ∧
      rke_reconstruct_key key.length meta g = .ok key := by
  intro g hg
  set l := key.length with hl
  set n := meta.total_fragments with hn
  set masks := (List.range (n - 1)).map (maskBytes l rng) with hmasks
  have hmlen : ∀ m ∈ masks, m.length = l := by
    intro m hm
    rw [hmasks] at hm
    obtain ⟨j, _, rfl⟩ := List.mem_map.mp hm
    exact maskBytes_length l rng j
  set first := mkFragment 1 n meta.threshold l (masks.foldl zipXor key) with hfirst
  set rest := (List.range (n - 1)).map
      (fun j => mkFragment (j + 2) n meta.threshold l (maskBytes l rng j)) with hrest
  have hg2 : g = ⟨(first :: rest).map rke_calculate_checksum, n⟩ := by
    have c1 : ¬ (key.length = 0 ∨ key.length > 256) := by omega
    have c2 : ¬ (meta.threshold > meta.total_fragments) := by omega
    have c3 : ¬ (meta.threshold < 2) := by omega
    unfold rke_split_key at hg
    rw [if_neg c1, if_neg c2, if_neg c3] at hg
    exact (Except.ok.inj hg).symm
  have hfoldlen : (masks.foldl zipXor key).length = l := foldl_zipXor_length masks key hmlen
  have hfirstBytes : dataBytes (rke_calculate_checksum first) l =
      masks.foldl zipXor key := by
    rw [dataBytes_calc, hfirst]
    exact dataBytes_mkFragment 1 n meta.threshold l _ hfoldlen
  have hrestBytes : ∀ j, dataBytes
      (rke_calculate_checksum (mkFragment (j + 2) n meta.threshold l (maskBytes l rng j))) l =
      maskBytes l rng j := by
    intro j
    rw [dataBytes_calc]
    exact dataBytes_mkFragment (j + 2) n meta.threshold l _ (maskBytes_length l rng j)
  have hcancel : masks.foldl zipXor (masks.foldl zipXor key) = key :=
    foldl_zipXor_cancel masks key hmlen
  have hrestLen : rest.length = n - 1 := by rw [hrest]; simp
  constructor
  · -- the XOR of all fragments\' data equals the key
    rw [hg2]
    show ((rke_calculate_checksum first :: rest.map rke_calculate_checksum).map
        (fun f => dataBytes f l)).foldl zipXor (List.replicate l 0) = key
    rw [List.map_cons, List.foldl_cons, hfirstBytes]
    rw [show zipXor (List.replicate l 0) (masks.foldl zipXor key) = masks.foldl zipXor key by
      rw [← hfoldlen]; exact zipXor_replicate_zero _]
    rw [List.map_map, hrest, List.map_map]
    have hmapeq : (List.range (n - 1)).map
        (((fun f => dataBytes f l) ∘ rke_calculate_checksum) ∘ fun j =>
          mkFragment (j + 2) n meta.threshold l (maskBytes l rng j)) = masks := by
      rw [hmasks]
      exact List.map_congr_left (fun j _ => hrestBytes j)
    rw [hmapeq]
    exact hcancel
  · -- reconstruction over the fragment area returns the key
    have hcount : ¬ (n < meta.threshold) := by omega
    have hstorLen : ((first :: rest).map rke_calculate_checksum).length = n := by
      rw [List.length_map, List.length_cons, hrestLen]; omega
    have hverify : (List.range meta.threshold).all (fun i =>
        rke_verify_checksum
          (((first :: rest).map rke_calculate_checksum).getD i zeroFragment) ==
            RKE_SUCCESS) = true := by
      rw [List.all_eq_true]
      intro i hi
      have hilt : i < ((first :: rest).map rke_calculate_checksum).length := by
        rw [hstorLen]; exact lt_of_lt_of_le (List.mem_range.mp hi) hTN
      rw [List.getD_eq_getElem _ _ hilt, List.getElem_map, verify_calc]
      rfl
    rw [hg2]
    show rke_reconstruct_key l meta ⟨(first :: rest).map rke_calculate_checksum, n⟩ = .ok key
    unfold rke_reconstruct_key
    rw [if_neg (show ¬ l = 0 by omega)]
    rw [if_neg (show ¬ (GlobalFrags.mk ((first :: rest).map rke_calculate_checksum) n).count <
      meta.threshold from hcount)]
    rw [if_neg (show ¬ ¬ ((List.range meta.threshold).all (fun i =>
        rke_verify_checksum
          (((GlobalFrags.mk ((first :: rest).map rke_calculate_checksum) n).storage).getD i
            zeroFragment) == RKE_SUCCESS)) from not_not_intro hverify)]
    have hkey0 : dataBytes
        (((first :: rest).map rke_calculate_checksum).getD 0 zeroFragment) l =
        masks.foldl zipXor key := hfirstBytes
    have hfold : (List.range (n - 1)).foldl
        (fun acc k => zipXor acc (dataBytes
          (((first :: rest).map rke_calculate_checksum).getD (k + 1) zeroFragment) l))
        (masks.foldl zipXor key) =
        masks.foldl zipXor (masks.foldl zipXor key) := by
      conv_rhs => rw [hmasks, List.foldl_map]
      apply foldl_congr_mem
      intro acc k hk
      have hklt : k < n - 1 := List.mem_range.mp hk
      have e1 : ((first :: rest).map rke_calculate_checksum).getD (k + 1) zeroFragment
          = rke_calculate_checksum
              (mkFragment (k + 2) n meta.threshold l (maskBytes l rng k)) := by
        rw [show (first :: rest).map rke_calculate_checksum =
          rke_calculate_checksum first :: rest.map rke_calculate_checksum from rfl]
        rw [List.getD_cons_succ, hrest, List.map_map]
        have hb : k < ((List.range (n - 1)).map
            (rke_calculate_checksum ∘ fun j =>
              mkFragment (j + 2) n meta.threshold l (maskBytes l rng j))).length := by
          simpa using hklt
        rw [List.getD_eq_getElem _ _ hb, List.getElem_map, List.getElem_range]
        rfl
      rw [e1, hrestBytes k]
    show Except.ok ((List.range
        ((GlobalFrags.mk ((first :: rest).map rke_calculate_checksum) n).count - 1)).foldl
        (fun acc k => zipXor acc (dataBytes
          (((GlobalFrags.mk ((first :: rest).map rke_calculate_checksum) n).storage).getD
            (k + 1) zeroFragment) l))
        (dataBytes
          (((GlobalFrags.mk ((first :: rest).map rke_calculate_checksum) n).storage).getD 0
            zeroFragment) l)) = Except.ok key
    rw [show (GlobalFrags.mk ((first :: rest).map rke_calculate_checksum) n).count = n from rfl]
    rw [show (GlobalFrags.mk ((first :: rest).map rke_calculate_checksum) n).storage =
      (first :: rest).map rke_calculate_checksum from rfl]
    rw [hkey0, hfold, hcancel]


/-- C1 witness: a concrete 1-byte key split into 2 fragments with threshold 2
and reconstructed. -/
theorem C1_split_reconstruct_roundtrip_witness :
    ∃ g, rke_split_key [170] ⟨List.range 16, 1, 2, 2, 0, 0, 0⟩ (fun _ => 0) = .ok g ∧
      ((g.storage.map (fun f => dataBytes f 1)).foldl zipXor (List.replicate 1 0) = [170] ∧
        rke_reconstruct_key 1 ⟨List.range 16, 1, 2, 2, 0, 0, 0⟩ g = .ok [170]) := by
  rcases hEq : rke_split_key [170] ⟨List.range 16, 1, 2, 2, 0, 0, 0⟩ (fun _ => 0) with e | g
  · exact absurd hEq (by simp [rke_split_key])
  · exact ⟨g, rfl,
      C1_split_reconstruct_roundtrip [170] ⟨List.range 16, 1, 2, 2, 0, 0, 0⟩ (fun _ => 0)
        (by decide) (by decide) (by decide) (by decide) (by decide) g hEq⟩

/-! ### C10 — metadata load rejects a key-id mismatch -/

/-- C10: when the metadata file read for a lookup key delivers a full record
whose stored key id differs from the lookup key in some byte position, the
load returns an error; and a successful load always returns a record whose
key id matches the lookup key.  (The file is found via the 4-byte directory
key only, so a colliding key can be read — and is then rejected.) -/
theorem C10_load_metadata_rejects_mismatch :
    (∀ (fs : RkeFs) (key_id : List Nat) (m : KeyMetadata),
      m.key_id.length = 16 → key_id.length = 16 →
      fs.metaF (key_id.take 4) = some (.record m) →
      (∃ j, j < 16 ∧ m.key_id.getD j 0 ≠ key_id.getD j 0) →
      rke_load_metadata fs key_id = .error RKE_ERROR_FRAGMENT_CORRUPT) ∧
    (∀ (fs : RkeFs) (key_id : List Nat) (m : KeyMetadata),
      rke_load_metadata fs key_id = .ok m → m.key_id.take 16 = key_id.take 16) := by
  constructor
  · intro fs key_id m hlm hlk hfile ⟨j, hj, hne⟩
    have hneq : m.key_id.take 16 ≠ key_id.take 16 := by
      intro he
      rw [List.take_of_length_le (le_of_eq hlm), List.take_of_length_le (le_of_eq hlk)] at he
      exact hne (by rw [he])
    unfold rke_load_metadata
    rw [hfile]
    show (if m.key_id.take 16 = key_id.take 16 then Except.ok m
      else Except.error RKE_ERROR_FRAGMENT_CORRUPT) = Except.error RKE_ERROR_FRAGMENT_CORRUPT
    rw [if_neg hneq]
  · intro fs key_id m hok
    unfold rke_load_metadata at hok
    rcases hfile : fs.metaF (key_id.take 4) with _ | mf
    · rw [hfile] at hok; exact absurd hok (by simp)
    · rcases mf with _ | m2
      · rw [hfile] at hok; exact absurd hok (by simp)
      · rw [hfile] at hok
        have hok2 : (if m2.key_id.take 16 = key_id.take 16 then Except.ok m2
            else Except.error RKE_ERROR_FRAGMENT_CORRUPT) = Except.ok m := hok
        by_cases hc : m2.key_id.take 16 = key_id.take 16
        · rw [if_pos hc] at hok2
          cases hok2
          exact hc
        · rw [if_neg hc] at hok2
          exact absurd hok2 (by simp)

/-- C10 witness: a record stored under the shared 4-byte directory key whose
full key id differs from the lookup key at byte 5 is rejected, and a matching
record loads with the matching id. -/
theorem C10_load_metadata_rejects_mismatch_witness :
    (rke_load_metadata
        ⟨fun p => if p = [1, 2, 3, 4] then
            some (.record ⟨[1, 2, 3, 4, 9, 0, 0, 0, 0, 0, 0, 0, 0, 0, 0, 0], 1, 5, 3, 0, 0, 0⟩)
          else none,
          fun _ _ => none⟩
        [1, 2, 3, 4, 5, 0, 0, 0, 0, 0, 0, 0, 0, 0, 0, 0] =
      .error RKE_ERROR_FRAGMENT_CORRUPT) ∧
    ((⟨[1, 2, 3, 4, 9, 0, 0, 0, 0, 0, 0, 0, 0, 0, 0, 0], 1, 5, 3, 0, 0, 0⟩ :
        KeyMetadata).key_id.take 16 =
      ([1, 2, 3, 4, 9, 0, 0, 0, 0, 0, 0, 0, 0, 0, 0, 0] : List Nat).take 16) := by
  constructor
  · exact C10_load_metadata_rejects_mismatch.1
      ⟨fun p => if p = [1, 2, 3, 4] then
          some (.record ⟨[1, 2, 3, 4, 9, 0, 0, 0, 0, 0, 0, 0, 0, 0, 0, 0], 1, 5, 3, 0, 0, 0⟩)
        else none,
        fun _ _ => none⟩
      [1, 2, 3, 4, 5, 0, 0, 0, 0, 0, 0, 0, 0, 0, 0, 0]
      ⟨[1, 2, 3, 4, 9, 0, 0, 0, 0, 0, 0, 0, 0, 0, 0, 0], 1, 5, 3, 0, 0, 0⟩
      (by decide) (by decide) (by decide) ⟨4, by decide, by decide⟩
  · exact C10_load_metadata_rejects_mismatch.2
      ⟨fun p => if p = [1, 2, 3, 4] then
          some (.record ⟨[1, 2, 3, 4, 9, 0, 0, 0, 0, 0, 0, 0, 0, 0, 0, 0], 1, 5, 3, 0, 0, 0⟩)
        else none,
        fun _ _ => none⟩
      [1, 2, 3, 4, 9, 0, 0, 0, 0, 0, 0, 0, 0, 0, 0, 0]
      ⟨[1, 2, 3, 4, 9, 0, 0, 0, 0, 0, 0, 0, 0, 0, 0, 0], 1, 5, 3, 0, 0, 0⟩
      (by decide)


/-! ### C2 — generate does not store fragments; query sees an empty bitmap -/

/-- C2: evaluating the code on the spec\'s S1 scenario over an empty store —
`cmd_rke_generate` succeeds (status 0, output `[0x01]`) but writes no
fragment files, so the immediately following `cmd_rke_query` for the same
key returns status 0 with an all-zero bitmap instead of bits 0..4 set; in
particular fragment 1 does not exist in the durable store. -/
theorem C2_generate_then_query_bitmap_empty :
    c2gen.status = STATUS_SUCCESS ∧ c2gen.output = some [1] ∧
    (cmd_rke_query c2queryBody c2gen.fs).status = STATUS_SUCCESS ∧
    (cmd_rke_query c2queryBody c2gen.fs).bitmap = some (List.replicate 32 0) ∧
    rke_fragment_exists c2gen.fs (List.range 16) 1 = false :=
  ⟨by decide, by decide, by decide, by decide, by decide⟩

/-! ### C3 — the per-peer decryption key is read at the wrong table offset -/

/-- C3: for peer index `da = 1` the code decrypts with table bytes 1..16
(`&aens[da]`), not with peer 1\'s secret at bytes 16..31 (`&aens[da * 16]`):
a block encrypted under bytes 1..16 is accepted, while a block encrypted
under peer 1\'s actual 16-byte secret is rejected. -/
theorem C3_decrypt_key_offset_is_da_not_16da :
    (cmd_decrypt_raida_key (c3bodyOf (crypt_ctr c3keyCode c3plain c3nonce))
        c3env c3nonce).status = STATUS_SUCCESS ∧
    (cmd_decrypt_raida_key (c3bodyOf (crypt_ctr c3keyCode c3plain c3nonce))
        c3env c3nonce).output = some [1] ∧
    (cmd_decrypt_raida_key (c3bodyOf (crypt_ctr c3keyClaim c3plain c3nonce))
        c3env c3nonce).status = STATUS_SUCCESS ∧
    (cmd_decrypt_raida_key (c3bodyOf (crypt_ctr c3keyClaim c3plain c3nonce))
        c3env c3nonce).output = some [0] ∧
    c3keyCode = (c3table.drop 1).take 16 ∧ c3keyClaim = (c3table.drop 16).take 16 ∧
    c3keyCode ≠ c3keyClaim :=
  ⟨by decide, by decide, by decide, by decide, by decide, by decide, by decide⟩

/-! ### C4 — `encrypt_key` field offsets and output layout -/

/-- C4 counterexample: on a 31-byte body whose byte 0 is 1 and byte 16 is 2
the handler succeeds and the pre-transform output byte 8 (the denomination)
is `payload[0] = 1`, not `payload[16] = 2` — the denomination is not read
from payload byte 16. -/
theorem C4_den_read_from_byte0 :
    (cmd_encrypt_key c4body c4env c4nonce 0).status = STATUS_SUCCESS ∧
    (cmd_encrypt_key c4body c4env c4nonce 0).output =
      some (crypt_ctr (pageAen c4page 0) (encryptKeyPlain c4body 0) c4nonce) ∧
    (encryptKeyPlain c4body 0).getD 8 0 = c4body.getD 0 0 ∧
    c4body.getD 0 0 ≠ c4body.getD 16 0 :=
  ⟨by decide, by decide, by decide, by decide⟩

/-- C4 amended: on a 31-byte body, the handler reads the denomination from
payload byte 0 and the serial from payload bytes 1..4 (little-endian); when
the page lookup succeeds it returns status 0 and `crypt_ctr` applied to the
16-byte block whose bytes 0..7 are `payload[5..12]`, byte 8 the denomination
byte `payload[0]`, bytes 9..12 `payload[1..4]`, and byte 15 `0xff`. -/
theorem C4_encrypt_key_layout (body : List Nat) (env : CoinEnv) (nonce : List Nat)
    (r0 : Nat) (pg : Page) (hlen : body.length = 31)
    (hpg : env.pages (toInt8 (body.getD 0 0)) (le32 body 1) = some pg) :
    (cmd_encrypt_key body env nonce r0).status = STATUS_SUCCESS ∧
    (cmd_encrypt_key body env nonce r0).output =
      some (crypt_ctr (pageAen pg (le32 body 1 % env.recordsPerPage))
        (encryptKeyPlain body r0) nonce) ∧
    (∀ j, j < 8 → (encryptKeyPlain body r0).getD j 0 = body.getD (5 + j) 0) ∧
    (encryptKeyPlain body r0).getD 8 0 = body.getD 0 0 % 256 ∧
    (∀ j, j < 4 → (encryptKeyPlain body r0).getD (9 + j) 0 = body.getD (1 + j) 0) ∧
    (encryptKeyPlain body r0).getD 15 0 = 255 := by
  have hcmd : cmd_encrypt_key body env nonce r0 =
      ⟨STATUS_SUCCESS, some (crypt_ctr (pageAen pg (le32 body 1 % env.recordsPerPage))
        (encryptKeyPlain body r0) nonce), env.pages⟩ := by
    simp only [cmd_encrypt_key, hlen, hpg]
    norm_num
  refine ⟨by rw [hcmd], by rw [hcmd], ?_, rfl, ?_, rfl⟩
  · intro j hj
    interval_cases j <;> rfl
  · intro j hj
    interval_cases j <;> rfl

/-- C4 witness: the amended layout at the concrete body `c4body`. -/
theorem C4_encrypt_key_layout_witness :
    (c4body.length = 31 ∧
      c4env.pages (toInt8 (c4body.getD 0 0)) (le32 c4body 1) = some c4page) ∧
    ((cmd_encrypt_key c4body c4env c4nonce 0).status = STATUS_SUCCESS ∧
      (cmd_encrypt_key c4body c4env c4nonce 0).output =
        some (crypt_ctr (pageAen c4page (le32 c4body 1 % c4env.recordsPerPage))
          (encryptKeyPlain c4body 0) c4nonce) ∧
      (∀ j, j < 8 → (encryptKeyPlain c4body 0).getD j 0 = c4body.getD (5 + j) 0) ∧
      (encryptKeyPlain c4body 0).getD 8 0 = c4body.getD 0 0 % 256 ∧
      (∀ j, j < 4 → (encryptKeyPlain c4body 0).getD (9 + j) 0 = c4body.getD (1 + j) 0) ∧
      (encryptKeyPlain c4body 0).getD 15 0 = 255) :=
  ⟨⟨by decide, by decide⟩,
    C4_encrypt_key_layout c4body c4env c4nonce 0 c4page (by decide) (by decide)⟩


/-! ### C5 — reconstruct output does not depend on fragment-file contents -/

/-- C5 counterexample: two filesystems with identical metadata, identical
fragment-file presence, and differing fragment-file contents, over the same
global fragment area, on which the handler produces different outputs — the
content difference makes one load fail, so the outputs are not always
identical. -/
theorem C5_fragment_content_can_change_status :
    (cmd_rke_reconstruct c5body c5fsA c5global).status = STATUS_SUCCESS ∧
    (cmd_rke_reconstruct c5body c5fsB c5global).status = ERROR_FILESYSTEM ∧
    c5fsA.metaF [1, 2, 3, 4] = c5fsB.metaF [1, 2, 3, 4] ∧
    (c5fsA.fragF [1, 2, 3, 4] 1).isSome = true ∧
    (c5fsB.fragF [1, 2, 3, 4] 1).isSome = true ∧
    c5fsA.fragF [1, 2, 3, 4] 1 ≠ c5fsB.fragF [1, 2, 3, 4] 1 := by
  refine ⟨?_, by decide, by decide, by decide, by decide, by decide⟩
  have hrec : rke_reconstruct_key 256 c5meta c5global = .ok (dataBytes c5frag 256) := by
    have hall : (List.range c5meta.threshold).all
        (fun i => rke_verify_checksum (c5global.storage.getD i zeroFragment) ==
          RKE_SUCCESS) = true := by
      rw [List.all_eq_true]
      intro i hi
      have hlt := List.mem_range.mp hi
      rw [show c5meta.threshold = 1 from rfl] at hlt
      have hz : i = 0 := by omega
      subst hz
      rw [show rke_verify_checksum (c5global.storage.getD 0 zeroFragment) = RKE_SUCCESS from
        verify_calc (mkFragment 1 1 1 1 [7])]
      rfl
    unfold rke_reconstruct_key
    rw [if_neg (by decide : ¬ (256 : Nat) = 0),
      if_neg (show ¬ c5global.count < c5meta.threshold by decide),
      if_neg (not_not_intro hall),
      show c5global.count - 1 = 0 from rfl]
    simp only [List.range_zero, List.foldl_nil]
    rfl
  have hm : rke_load_metadata c5fsA (c5body.take 16) = .ok c5meta := by decide
  have hcount : rke_count_fragments c5fsA (c5body.take 16) = 1 := by decide
  have hfails : reconstructLoadFails c5fsA (c5body.take 16) c5meta.threshold = false := by
    decide
  unfold cmd_rke_reconstruct
  rw [if_neg (by decide : ¬ c5body.length ≠ 18)]
  simp only [hm, hcount, hfails, hrec]
  rw [if_neg (show ¬ (1 : Nat) < c5meta.threshold by decide)]
  rfl

/-- C5 amended: two executions of `cmd_rke_reconstruct` with identical
metadata files, identical fragment-file presence, and an identical global
fragment area, in which every fragment load the handler attempts — the
fragments with ids `1..threshold` of the loaded metadata that exist on
disk — succeeds in both executions, produce identical output: the loaded
fragment records themselves are discarded, and the returned key comes from
the process-global fragment area alone. -/
theorem C5_reconstruct_ignores_fragment_contents (body : List Nat)
    (fsA fsB : RkeFs) (g : GlobalFrags)
    (hmeta : fsA.metaF = fsB.metaF)
    (hpres : ∀ p i, (fsA.fragF p i).isSome = (fsB.fragF p i).isSome)
    (hloadA : ∀ m, rke_load_metadata fsA (body.take 16) = .ok m →
      ∀ i, 1 ≤ i → i ≤ m.threshold →
      rke_fragment_exists fsA (body.take 16) i = true →
      isOkE (rke_load_fragment fsA (body.take 16) i) = true)
    (hloadB : ∀ m, rke_load_metadata fsB (body.take 16) = .ok m →
      ∀ i, 1 ≤ i → i ≤ m.threshold →
      rke_fragment_exists fsB (body.take 16) i = true →
      isOkE (rke_load_fragment fsB (body.take 16) i) = true) :
    cmd_rke_reconstruct body fsA g = cmd_rke_reconstruct body fsB g := by
  have hex : ∀ i, rke_fragment_exists fsA (body.take 16) i =
      rke_fragment_exists fsB (body.take 16) i := by
    intro i
    unfold rke_fragment_exists
    rw [hpres]
  have hmetaEq : rke_load_metadata fsA (body.take 16) =
      rke_load_metadata fsB (body.take 16) := by
    unfold rke_load_metadata
    rw [hmeta]
  have hcount : rke_count_fragments fsA (body.take 16) =
      rke_count_fragments fsB (body.take 16) := by
    unfold rke_count_fragments
    exact List.countP_congr (fun i _ => by rw [hex i])
  have hfails : ∀ (fs : RkeFs) (m : KeyMetadata),
      (∀ i, 1 ≤ i → i ≤ m.threshold →
        rke_fragment_exists fs (body.take 16) i = true →
        isOkE (rke_load_fragment fs (body.take 16) i) = true) →
      reconstructLoadFails fs (body.take 16) m.threshold = false := by
    intro fs m hload
    unfold reconstructLoadFails
    rw [List.any_eq_false]
    intro i hi
    obtain ⟨k, hk, rfl⟩ := List.mem_map.mp hi
    have hk2 := List.mem_range.mp hk
    by_cases he : rke_fragment_exists fs (body.take 16) (k + 1) = true
    · simp [he, hload (k + 1) (by omega) (by omega) he]
    · simp [Bool.eq_false_iff.mpr he]
  unfold cmd_rke_reconstruct
  by_cases hlen : body.length ≠ 18
  · rw [if_pos hlen, if_pos hlen]
  · rw [if_neg hlen, if_neg hlen]
    rcases hm : rke_load_metadata fsB (body.take 16) with e | m
    · have hmA : rke_load_metadata fsA (body.take 16) = .error e := by
        rw [hmetaEq, hm]
      simp only [hmA, hm]
    · have hmA : rke_load_metadata fsA (body.take 16) = .ok m := by
        rw [hmetaEq, hm]
      have hfA : reconstructLoadFails fsA (body.take 16) m.threshold = false :=
        hfails fsA m (hloadA m hmA)
      have hfB : reconstructLoadFails fsB (body.take 16) m.threshold = false :=
        hfails fsB m (hloadB m hm)
      simp only [hmA, hm, hcount, hfA, hfB]

/-- C5 witness: the amended theorem at two concrete filesystems whose only
difference is the stored fragment byte (5 versus 9); both runs return the
key from the global fragment area. -/
theorem C5_reconstruct_ignores_fragment_contents_witness :
    (c5fsC.metaF = c5fsD.metaF ∧ c5fsC.fragF [1, 2, 3, 4] 1 ≠ c5fsD.fragF [1, 2, 3, 4] 1) ∧
    cmd_rke_reconstruct c5body c5fsC c5global = cmd_rke_reconstruct c5body c5fsD c5global :=
  ⟨⟨rfl, by decide⟩,
    C5_reconstruct_ignores_fragment_contents c5body c5fsC c5fsD c5global rfl
      (fun p i => by
        by_cases h : i = 1
        · simp [c5fsC, c5fsD, h]
        · simp [c5fsC, c5fsD, h])
      (fun m hm i h1 h2 hi => by
        by_cases h : i = 1
        · subst h; decide
        · exact absurd hi (by simp [rke_fragment_exists, c5fsC, h]))
      (fun m hm i h1 h2 hi => by
        by_cases h : i = 1
        · subst h; decide
        · exact absurd hi (by simp [rke_fragment_exists, c5fsD, h]))⟩

/-! ### C6 — which fragments reconstruction verifies -/

/-- C6: the corrupted fragment `c6bad3` fails checksum verification — its
data byte was flipped after its checksum was computed. -/
lemma c6bad3_fails : rke_verify_checksum c6bad3 = RKE_ERROR_FRAGMENT_CORRUPT := by
  decide

/-- C6 counterexample: the fragment at index 2 sits beyond the threshold
(2), fails checksum verification, and is XORed into the key, yet
reconstruction succeeds — returning the corrupted XOR `[1]` instead of
failing `FragmentCorrupt`. -/
theorem C6_corrupt_fragment_beyond_threshold_not_detected :
    rke_reconstruct_key 1 c6meta c6state = .ok [1] ∧
    rke_verify_checksum (c6state.storage.getD 2 zeroFragment) =
      RKE_ERROR_FRAGMENT_CORRUPT ∧
    c6meta.threshold = 2 ∧ c6state.count = 3 := by
  refine ⟨?_, c6bad3_fails, rfl, rfl⟩
  have hall : (List.range c6meta.threshold).all
      (fun i => rke_verify_checksum (c6state.storage.getD i zeroFragment) ==
        RKE_SUCCESS) = true := by
    rw [List.all_eq_true]
    intro i hi
    have hlt := List.mem_range.mp hi
    rw [show c6meta.threshold = 2 from rfl] at hlt
    have hor : i = 0 ∨ i = 1 := by omega
    rcases hor with rfl | rfl
    · rw [show rke_verify_checksum (c6state.storage.getD 0 zeroFragment) = RKE_SUCCESS from
        verify_calc (mkFragment 1 3 2 1 [10])]
      rfl
    · rw [show rke_verify_checksum (c6state.storage.getD 1 zeroFragment) = RKE_SUCCESS from
        verify_calc (mkFragment 2 3 2 1 [20])]
      rfl
  unfold rke_reconstruct_key
  rw [if_neg (by decide : ¬ (1 : Nat) = 0),
    if_neg (show ¬ c6state.count < c6meta.threshold by decide),
    if_neg (not_not_intro hall)]
  decide

/-- C6 amended: `rke_reconstruct_key` verifies the checksums of the first
`threshold` fragments only; it returns `FragmentCorrupt` (and no key)
exactly when one of those first `threshold` fragments fails verification —
fragments at indices `threshold..fragment_count-1` are XORed in without
verification. -/
theorem C6_reconstruct_verifies_first_threshold (ks : Nat) (meta : KeyMetadata)
    (g : GlobalFrags) (hks : ks ≠ 0) (hcnt : meta.threshold ≤ g.count) :
    rke_reconstruct_key ks meta g = .error RKE_ERROR_FRAGMENT_CORRUPT ↔
      ∃ i, i < meta.threshold ∧
        rke_verify_checksum (g.storage.getD i zeroFragment) ≠ RKE_SUCCESS := by
  unfold rke_reconstruct_key
  rw [if_neg hks, if_neg (not_lt.mpr hcnt)]
  by_cases hall : (List.range meta.threshold).all
      (fun i => rke_verify_checksum (g.storage.getD i zeroFragment) == RKE_SUCCESS) = true
  · rw [if_neg (not_not_intro hall)]
    constructor
    · intro h; exact absurd h (by simp)
    · rintro ⟨i, hi, hv⟩
      rw [List.all_eq_true] at hall
      have hbeq := hall i (List.mem_range.mpr hi)
      rw [beq_iff_eq] at hbeq
      exact absurd hbeq hv
  · rw [if_pos hall]
    constructor
    · intro _
      rw [List.all_eq_true] at hall
      push_neg at hall
      obtain ⟨i, hi, hv⟩ := hall
      refine ⟨i, List.mem_range.mp hi, fun he => hv ?_⟩
      rw [beq_iff_eq]
      exact he
    · intro _; rfl

/-- C6 witness: with the corrupt fragment inside the threshold (index 1),
reconstruction does fail `FragmentCorrupt`. -/
theorem C6_reconstruct_verifies_first_threshold_witness :
    ((1 : Nat) ≠ 0 ∧ c6meta.threshold ≤ c6state2.count) ∧
    rke_reconstruct_key 1 c6meta c6state2 = .error RKE_ERROR_FRAGMENT_CORRUPT :=
  ⟨⟨by decide, by decide⟩,
    (C6_reconstruct_verifies_first_threshold 1 c6meta c6state2 (by decide)
      (by decide)).mpr
      ⟨1, by decide, by
        rw [show c6state2.storage.getD 1 zeroFragment = c6bad3 from rfl, c6bad3_fails]
        decide⟩⟩

/-! ### C7 — `decrypt_raida_key` length checks and per-coin output -/

lemma decryptFold_length (env : CoinEnv) (aens nonce : List Nat) (mfs : Nat)
    (body : List Nat) :
    ∀ (l : List Nat) (init : (Int → Nat → Option Page) × List Nat),
      ((l.foldl (decryptStep env aens nonce mfs body) init).2).length =
        init.2.length + l.length := by
  intro l
  induction l with
  | nil => intro init; simp
  | cons x rest ih =>
      intro init
      rw [List.foldl_cons, ih]
      simp [decryptStep]
      omega

lemma decryptFold_bits (env : CoinEnv) (aens nonce : List Nat) (mfs : Nat)
    (body : List Nat) :
    ∀ (l : List Nat) (init : (Int → Nat → Option Page) × List Nat),
      (∀ b ∈ init.2, b = 0 ∨ b = 1) →
      ∀ b ∈ (l.foldl (decryptStep env aens nonce mfs body) init).2, b = 0 ∨ b = 1 := by
  intro l
  induction l with
  | nil => intro init h; exact h
  | cons x rest ih =>
      intro init h
      rw [List.foldl_cons]
      apply ih
      intro b hb
      have hb2 : b ∈ init.2 ++
          [if (decryptBlock env aens nonce mfs body init.1 x).2 then 1 else 0] := hb
      rcases List.mem_append.mp hb2 with h1 | h2
      · exact h b h1
      · have h3 := List.mem_singleton.mp h2
        subst h3
        cases hb3 : (decryptBlock env aens nonce mfs body init.1 x).2 <;> simp [hb3]

/-- C7: a body shorter than 49 bytes gives `InvalidPacketLength`; a body
whose `body_size - 23` is not a multiple of 26 gives `CoinsNotDiv`;
otherwise, when the encryption coin loads, the status is `Success` and the
output is exactly `(body_size - 23) / 26` bytes, each 0x00 or 0x01. -/
theorem C7_decrypt_raida_key_status_and_output (body : List Nat) (env : CoinEnv)
    (nonce : List Nat) :
    (body.length < 49 →
      (cmd_decrypt_raida_key body env nonce).status = ERROR_INVALID_PACKET_LENGTH) ∧
    (49 ≤ body.length → (body.length - 23) % 26 ≠ 0 →
      (cmd_decrypt_raida_key body env nonce).status = ERROR_COINS_NOT_DIV) ∧
    (∀ aens, 49 ≤ body.length → (body.length - 23) % 26 = 0 →
      load_my_enc_coin env (body.getD 0 0) (le32 body 1) = some aens →
      (cmd_decrypt_raida_key body env nonce).status = STATUS_SUCCESS ∧
      ∃ out, (cmd_decrypt_raida_key body env nonce).output = some out ∧
        out.length = (body.length - 23) / 26 ∧
        (∀ b ∈ out, b = 0 ∨ b = 1)) := by
  refine ⟨?_, ?_, ?_⟩
  · intro h
    unfold cmd_decrypt_raida_key
    rw [if_pos h]
  · intro h1 h2
    unfold cmd_decrypt_raida_key
    rw [if_neg (not_lt.mpr h1), if_pos h2]
  · intro aens h1 h2 hload
    have hcmd : cmd_decrypt_raida_key body env nonce =
        ⟨STATUS_SUCCESS,
          some (decryptLoop env aens nonce env.mfs body ((body.length - 23) / 26)).2,
          (decryptLoop env aens nonce env.mfs body ((body.length - 23) / 26)).1⟩ := by
      unfold cmd_decrypt_raida_key
      rw [if_neg (not_lt.mpr h1), if_neg (fun hq => hq h2)]
      simp only [hload]
    rw [hcmd]
    refine ⟨rfl, _, rfl, ?_, ?_⟩
    · have hlen := decryptFold_length env aens nonce env.mfs body
        (List.range ((body.length - 23) / 26)) (env.pages, [])
      simpa [decryptLoop] using hlen
    · intro b hb
      exact decryptFold_bits env aens nonce env.mfs body
        (List.range ((body.length - 23) / 26)) (env.pages, []) (by simp) b hb

/-- C7 witness: the three branches at concrete bodies — 48 zero bytes
(too short), 50 zero bytes (not block-aligned), and 49 zero bytes (one
all-rejected coin block, status Success, output one byte). -/
theorem C7_decrypt_raida_key_status_and_output_witness :
    ((List.replicate 48 0 : List Nat).length < 49 ∧
      (cmd_decrypt_raida_key (List.replicate 48 0) c7env c7nonce).status =
        ERROR_INVALID_PACKET_LENGTH) ∧
    (49 ≤ (List.replicate 50 0 : List Nat).length ∧
      ((List.replicate 50 0 : List Nat).length - 23) % 26 ≠ 0 ∧
      (cmd_decrypt_raida_key (List.replicate 50 0) c7env c7nonce).status =
        ERROR_COINS_NOT_DIV) ∧
    ((cmd_decrypt_raida_key (List.replicate 49 0) c7env c7nonce).status =
        STATUS_SUCCESS ∧
      ∃ out, (cmd_decrypt_raida_key (List.replicate 49 0) c7env c7nonce).output =
          some out ∧
        out.length = ((List.replicate 49 0 : List Nat).length - 23) / 26 ∧
        (∀ b ∈ out, b = 0 ∨ b = 1)) :=
  ⟨⟨by decide,
      (C7_decrypt_raida_key_status_and_output (List.replicate 48 0) c7env c7nonce).1
        (by decide)⟩,
    ⟨by decide, by decide,
      (C7_decrypt_raida_key_status_and_output (List.replicate 50 0) c7env c7nonce).2.1
        (by decide) (by decide)⟩,
    (C7_decrypt_raida_key_status_and_output (List.replicate 49 0) c7env c7nonce).2.2
      (List.replicate 400 0) (by decide) (by decide) (by decide)⟩

/-! ### C9 — `load_my_enc_coin` success conditions -/

/-- C9 counterexample: a coin file whose header bytes 2 and 3 are 0x00 and
0x80 loads successfully against the configured coin id 0xFF80, although the
unsigned big-endian parse of those bytes is 0x0080 ≠ 0xFF80 — the code
sign-extends the `char` buffer, so success is not equivalent to the
unsigned-parse condition the claim states. -/
theorem C9_signed_parse_accepts_mismatched_unsigned_id :
    load_my_enc_coin c9env 1 100 = some ((c9file.drop 40).take 400) ∧
    specCoinIdBigEndian (c9file.getD 2 0) (c9file.getD 3 0) = 128 ∧
    c9env.coin_id = 65408 :=
  ⟨by decide, by decide, by decide⟩

/-- C9 amended: `load_my_enc_coin(den, sn)` succeeds iff the coin file for
`(den, sn)` exists, holds at least 440 bytes (`read` then delivers exactly
440), and the sign-extending parse `coinIdOfFile` of bytes 2 and 3 — which
equals `0xFF00 | byte3` when `byte3 ≥ 0x80` and the unsigned
`(byte2 << 8) | byte3` otherwise — equals the configured coin id; on
success the returned buffer is file bytes 40..439. -/
theorem C9_load_enc_coin_success_iff (env : CoinEnv) (den sn : Nat) (buf : List Nat) :
    load_my_enc_coin env den sn = some buf ↔
      ∃ file, env.coins den sn = some file ∧ 440 ≤ file.length ∧
        coinIdOfFile (file.getD 2 0) (file.getD 3 0) = env.coin_id ∧
        buf = (file.drop 40).take 400 := by
  unfold load_my_enc_coin
  rcases h : env.coins den sn with _ | file
  · simp
  · constructor
    · intro hok
      have hok2 : (if min file.length 440 ≠ 440 then none
          else if coinIdOfFile (file.getD 2 0) (file.getD 3 0) ≠ env.coin_id then none
          else some ((file.drop 40).take 400)) = some buf := hok
      by_cases h1 : min file.length 440 ≠ 440
      · rw [if_pos h1] at hok2; exact absurd hok2 (by simp)
      · rw [if_neg h1] at hok2
        by_cases h2 : coinIdOfFile (file.getD 2 0) (file.getD 3 0) ≠ env.coin_id
        · rw [if_pos h2] at hok2; exact absurd hok2 (by simp)
        · rw [if_neg h2] at hok2
          exact ⟨file, rfl, by omega, not_not.mp h2, (Option.some.inj hok2).symm⟩
    · rintro ⟨file2, hf2, hlen, hcid, hbuf⟩
      injection hf2 with hf3
      subst hf3
      show (if min file.length 440 ≠ 440 then none
          else if coinIdOfFile (file.getD 2 0) (file.getD 3 0) ≠ env.coin_id then none
          else some ((file.drop 40).take 400)) = some buf
      rw [if_neg (by omega), if_neg (not_not_intro hcid), hbuf]

/-- C9 witness: the amended equivalence instantiated at `c9env`, producing
the concrete successful load. -/
theorem C9_load_enc_coin_success_iff_witness :
    load_my_enc_coin c9env 1 100 = some (List.replicate 400 9) :=
  (C9_load_enc_coin_success_iff c9env 1 100 (List.replicate 400 9)).mpr
    ⟨c9file, by decide, by decide, by decide, by decide⟩

end RKE
